import Mathlib

/-!
Shallow embedding of `ceph_deploy/install.py` (ceph-deploy).

The source is a fleet orchestrator: `install`, `uninstall`, `purge` and
`purge_data` iterate over a host list, and per host open a remote session
(`hosts.get`), run distro-adapter actions (`install`, `uninstall`,
`repo_install`, `mirror_install`) or remote commands, and close the
session (`conn.exit`).

We embed each orchestrator as a pure function producing a trace of
observable events (`Event`) together with an optional error (`Err`);
`none` means the invocation succeeded.  The outside world (remote hosts,
adapters, the environment variables) is a parameter `Env`: each fallible
external call is a function of the hostname returning `Option Err`
(`some e` means the Python call raised), and each remote query
(`which ceph`, `path_exists`) is a boolean function of the hostname.
`LOG.warning` calls become warning events; `LOG.info`/`LOG.debug` calls
are not modelled except where a claim is about them.  Exceptions
short-circuit exactly as in Python: later statements of the aborted
iteration and later hosts produce no events.

The configuration document (`cd_conf`) is external to the source
(consumed as a read-only lookup interface) and is modelled by the
interface the source uses: `get_default_repo`, `has_repos`, `get_repos`,
`items`, `get_list`.
-/

/-- A Python option value stored in a repo-options dict: the config file
yields strings, and `custom_repo` inserts the boolean `install_ceph`. -/
inductive OptVal where
  | s (v : String)
  | b (v : Bool)
deriving DecidableEq, Repr

/-- Errors raised by the embedded code. `remote h op` stands for any
exception escaping an external call `op` on host `h` (session open,
adapter action, remote command); `missingKey` is the `RuntimeError`
raised by `custom_repo` when a required option is absent; and
`stillInstalled` is the `RuntimeError` of `purge_data` phase 1. -/
inductive Err where
  | remote (host : String) (op : String)
  | missingKey (key : String) (sect : String)
  | stillInstalled
deriving DecidableEq, Repr

/-- Observable events: warnings, adapter calls, remote commands and
session lifecycle, in program order.  Every per-host event carries the
hostname. -/
inductive Event where
  | warnDeprecatedStable
  | warnGpgFallback (host : String)
  | warnDefaultOverridden (host : String)
  | warnCustomOverridden (host : String)
  | warnNoDefault (host : String)
  | warnOsdMounted (host : String)
  | connect (host : String)
  | mirrorInstall (host : String) (repoUrl gpgUrl : Option String) (adjust : Bool)
  | repoInstall (host sect : String) (baseurl gpgkey : OptVal)
      (opts : List (String × OptVal))
  | defaultInstall (host kind : String) (version : Option String) (adjust : Bool)
  | cephVersionCheck (host : String)
  | connExit (host : String)
  | uninstallPkg (host : String) (purge : Bool)
  | whichCheck (host : String) (present : Bool)
  | logErrorStillInstalled (hosts : List String)
  | rmDataBestEffort (host : String)
  | umountSubdirs (host : String)
  | rmDataChecked (host : String)
  | rmConfDir (host : String)
deriving DecidableEq, Repr

/-- The configuration document interface used by the source
(`cd_conf.get_default_repo()`, `.has_repos`, `.get_repos()`,
`.items(section)`, `.get_list(section, key)`). -/
structure ConfDocument where
  defaultRepo : Option String
  hasRepos : Bool
  repos : List String
  items : String → List (String × String)
  getList : String → String → List String

/-- The parsed-flags namespace fields read by the source. -/
structure Args where
  stable : Option String
  release : String
  dev : String
  version_kind : String
  adjust_repos : Bool
  repo_url : Option String
  gpg_url : Option String
  host : List String
  cd_conf : Option ConfDocument

/-- The world outside the orchestrator: environment-variable overrides
and, per host, the outcome of each external call.  `some e` for a
fallible call means the call raised `e`. -/
structure Env where
  envRepoUrl : Option String
  envGpgUrl : Option String
  getHost : String → Option Err
  mirrorInstall : String → Option Err
  repoInstall : String → String → Option Err
  install : String → Option Err
  cephVersion : String → Option Err
  uninstall : String → Option Err
  whichCeph : String → Bool
  pathExists : String → Bool
  umountRun : String → Option Err
  rmDataRun : String → Option Err
  rmConfRun : String → Option Err

/-- Python truthiness of an optional string: `None` and `''` are falsy. -/
def truthyStr : Option String → Bool
  | none => false
  | some s => !(s == "")

/-- Python `a or b` on optional strings (`os.environ.get(...) or args.x`):
the first operand wins iff it is truthy. -/
def pyOr (a b : Option String) : Option String :=
  if truthyStr a then a else b

/-- The fixed fallback GPG key URL (`gpg_fallback` in `install`). -/
def gpg_fallback : String :=
  "https://ceph.com/git/?p=ceph.git;a=blob_plain;f=keys/release.asc"

/-- `StoreVersion.__call__`: records which exclusive version flag was
set, mapping dest `release` back to `stable`. -/
def storeVersionKind (dest : String) : String :=
  if dest == "release" then "stable" else dest

/-- The `--stable` deprecation dance at the top of `install`: if
`args.stable is not None`, warn and copy its value into `args.release`. -/
def versionPrologue (a : Args) : Args × List Event :=
  match a.stable with
  | some s => ({ a with release := s }, [Event.warnDeprecatedStable])
  | none => (a, [])

/-- `version = args.release` when `version_kind == 'stable'`, else
`getattr(args, args.version_kind)`; for `testing` the flag value is the
falsy empty list, modelled as `none`. -/
def getVersion (a : Args) : Option String :=
  if a.version_kind == "stable" then some a.release
  else if a.version_kind == "dev" then some a.dev
  else none

/-- Insert into a Python dict modelled as an ordered association list:
replace an existing binding in place, else append. -/
def dictInsert (k : String) (v : OptVal) :
    List (String × OptVal) → List (String × OptVal)
  | [] => [(k, v)]
  | (k', v') :: rest =>
      if k' == k then (k, v) :: rest else (k', v') :: dictInsert k v rest

/-- `dict(items)`: fold the key/value pairs left to right, later
occurrences of a key overriding earlier ones. -/
def dictOfItems (its : List (String × String)) : List (String × OptVal) :=
  its.foldl (fun d kv => dictInsert kv.1 (OptVal.s kv.2) d) []

/-- `d.pop(k)`: the value bound to `k` and the dict without it, or
`none` when the key is absent (Python raises `KeyError`). -/
def dictPop (k : String) :
    List (String × OptVal) → Option (OptVal × List (String × OptVal))
  | [] => none
  | (k', v) :: rest =>
      if k' == k then some (v, rest)
      else match dictPop k rest with
        | none => none
        | some (v', rest') => some (v', (k', v) :: rest')

/-- `should_use_custom_repo(args, cd_conf, repo_url)` verbatim. -/
def should_use_custom_repo (a : Args) (cd_conf : Option ConfDocument)
    (repo_url : Option String) : Bool :=
  if truthyStr repo_url then false
  else match cd_conf with
    | none => false
    | some conf =>
        if conf.hasRepos then
          decide (a.release ∈ conf.repos) || truthyStr conf.defaultRepo
        else false

/-- The section `custom_repo` settles on: the release-named section if
present in `get_repos()`, else `get_default_repo()`. -/
def selectRepo (a : Args) (conf : ConfDocument) : Option String :=
  if a.release ∈ conf.repos then some a.release else conf.defaultRepo

/-- One iteration of the `for xrepo in extra_repos` loop of
`custom_repo`: build the section's options dict, pop `baseurl` and
`gpgkey` (a missing key raises the wrapped `RuntimeError`), then call
`distro.repo_install`. -/
def extraRepoStep (env : Env) (conf : ConfDocument) (hostname xrepo : String) :
    List Event × Option Err :=
  let options := dictOfItems (conf.items xrepo)
  match dictPop "baseurl" options with
  | none => ([], some (Err.missingKey "baseurl" xrepo))
  | some (b, d1) =>
      match dictPop "gpgkey" d1 with
      | none => ([], some (Err.missingKey "gpgkey" xrepo))
      | some (g, d2) =>
          ([Event.repoInstall hostname xrepo b g d2], env.repoInstall hostname xrepo)

/-- The whole extra-repos loop, fail-fast like the Python `for`. -/
def extraRepoLoop (env : Env) (conf : ConfDocument) (hostname : String) :
    List String → List Event × Option Err
  | [] => ([], none)
  | x :: rest =>
      let p := extraRepoStep env conf hostname x
      match p.2 with
      | some e => (p.1, some e)
      | none =>
          (p.1 ++ (extraRepoLoop env conf hostname rest).1,
           (extraRepoLoop env conf hostname rest).2)

/-- `custom_repo(distro, args, cd_conf, rlogger)`: pick the section via
`selectRepo`; if none is truthy, only warn; else build the options dict,
add `install_ceph = True`, pop the required keys (missing → the wrapped
`RuntimeError` naming the key and the section, before any adapter call),
call `repo_install` for the primary section, then for each extra repo. -/
def custom_repo (env : Env) (a : Args) (conf : ConfDocument)
    (hostname : String) : List Event × Option Err :=
  match selectRepo a conf with
  | none => ([Event.warnNoDefault hostname], none)
  | some sect =>
      if sect == "" then ([Event.warnNoDefault hostname], none)
      else
        let options :=
          dictInsert "install_ceph" (OptVal.b true) (dictOfItems (conf.items sect))
        let extra := conf.getList sect "extra-repos"
        match dictPop "baseurl" options with
        | none => ([], some (Err.missingKey "baseurl" sect))
        | some (b, d1) =>
            match dictPop "gpgkey" d1 with
            | none => ([], some (Err.missingKey "gpgkey" sect))
            | some (g, d2) =>
                let ev := Event.repoInstall hostname sect b g d2
                match env.repoInstall hostname sect with
                | some e => ([ev], some e)
                | none =>
                    (ev :: (extraRepoLoop env conf hostname extra).1,
                     (extraRepoLoop env conf hostname extra).2)

/-- The tail of an `install` host iteration: the read-only
`hosts.common.ceph_version(distro.conn)` check, then `distro.conn.exit()`.
An exception out of the version check skips the session close. -/
def finishHost (env : Env) (hostname : String) (tr : List Event) :
    List Event × Option Err :=
  let evs := tr ++ [Event.cephVersionCheck hostname]
  match env.cephVersion hostname with
  | some e => (evs, some e)
  | none => (evs ++ [Event.connExit hostname], none)

/-- `distro.install(distro, args.version_kind, version, args.adjust_repos)`,
the default-channel branch of the dispatch. -/
def defaultInstallStep (env : Env) (a : Args) (hostname : String)
    (pre : List Event) : List Event × Option Err :=
  let evs :=
    pre ++ [Event.defaultInstall hostname a.version_kind (getVersion a) a.adjust_repos]
  (evs, env.install hostname)

/-- `repo_url = os.environ.get('CEPH_DEPLOY_REPO_URL') or args.repo_url`. -/
def resolveRepoUrl (env : Env) (a : Args) : Option String :=
  pyOr env.envRepoUrl a.repo_url

/-- `gpg_url = os.environ.get('CEPH_DEPLOY_GPG_URL') or args.gpg_url`,
then `if gpg_url is None and repo_url: gpg_url = gpg_fallback`. -/
def resolveGpgUrl (env : Env) (a : Args) : Option String :=
  let gpg_url0 := pyOr env.envGpgUrl a.gpg_url
  if gpg_url0.isNone && truthyStr (resolveRepoUrl env a) then some gpg_fallback
  else gpg_url0

/-- The two warnings accompanying the GPG fallback substitution. -/
def gpgWarn (env : Env) (a : Args) (hostname : String) : List Event :=
  if (pyOr env.envGpgUrl a.gpg_url).isNone && truthyStr (resolveRepoUrl env a) then
    [Event.warnGpgFallback hostname]
  else []

/-- The overridden-on-the-CLI warnings emitted when an explicit repo URL
is used while the config document would also have matched. -/
def overrideWarns (a : Args) (hostname : String) : List Event :=
  match a.cd_conf with
  | none => []
  | some conf =>
      (if truthyStr conf.defaultRepo then [Event.warnDefaultOverridden hostname]
       else []) ++
      (if decide (a.release ∈ conf.repos) then [Event.warnCustomOverridden hostname]
       else [])

/-- Lines 47–89 of one `install` iteration, after the session is open:
resolve `repo_url`/`gpg_url` from the environment overrides and flags,
apply the GPG fallback, then dispatch on (1) an explicit repo URL →
`mirror_install` (warning first when the config would have matched),
(2) `should_use_custom_repo` → `custom_repo`, (3) otherwise the default
`distro.install`.  (When `cd_conf` is `None`, `should_use_custom_repo`
returns `False`, so matching on `cd_conf` first is equivalent to the
source's `elif`.) -/
def installDispatch (env : Env) (a : Args) (hostname : String) :
    List Event × Option Err :=
  let repo_url := resolveRepoUrl env a
  if truthyStr repo_url then
    (gpgWarn env a hostname ++ overrideWarns a hostname ++
      [Event.mirrorInstall hostname repo_url (resolveGpgUrl env a) a.adjust_repos],
     env.mirrorInstall hostname)
  else
    match a.cd_conf with
    | some conf =>
        if should_use_custom_repo a (some conf) repo_url then
          let pr := custom_repo env a conf hostname
          (gpgWarn env a hostname ++ pr.1, pr.2)
        else defaultInstallStep env a hostname (gpgWarn env a hostname)
    | none => defaultInstallStep env a hostname (gpgWarn env a hostname)

/-- One full `install` host iteration: `hosts.get` (its failure yields
no events for the host), the dispatch, then the version check and the
session close — both skipped when the dispatch raised. -/
def installHost (env : Env) (a : Args) (hostname : String) :
    List Event × Option Err :=
  match env.getHost hostname with
  | some e => ([], some e)
  | none =>
      let d := installDispatch env a hostname
      match d.2 with
      | some e => (Event.connect hostname :: d.1, some e)
      | none => finishHost env hostname (Event.connect hostname :: d.1)

/-- The `for hostname in args.host` loop of `install`: fail-fast, an
exception aborts the remaining hosts. -/
def installLoop (env : Env) (a : Args) : List String → List Event × Option Err
  | [] => ([], none)
  | h :: rest =>
      let p := installHost env a h
      match p.2 with
      | some e => (p.1, some e)
      | none =>
          (p.1 ++ (installLoop env a rest).1, (installLoop env a rest).2)

/-- `install(args)`: the `--stable` prologue, then the host loop. -/
def install (env : Env) (a0 : Args) : List Event × Option Err :=
  let a := (versionPrologue a0).1
  ((versionPrologue a0).2 ++ (installLoop env a a.host).1,
   (installLoop env a a.host).2)

/-- One `uninstall`/`purge` host iteration:
`hosts.get`, `distro.uninstall(distro.conn[, purge=True])`, `conn.exit()`. -/
def uninstallHost (env : Env) (purge : Bool) (hostname : String) :
    List Event × Option Err :=
  match env.getHost hostname with
  | some e => ([], some e)
  | none =>
      let evs := [Event.connect hostname, Event.uninstallPkg hostname purge]
      match env.uninstall hostname with
      | some e => (evs, some e)
      | none => (evs ++ [Event.connExit hostname], none)

/-- The `uninstall`/`purge` host loop, fail-fast. -/
def uninstallLoop (env : Env) (purge : Bool) :
    List String → List Event × Option Err
  | [] => ([], none)
  | h :: rest =>
      let p := uninstallHost env purge h
      match p.2 with
      | some e => (p.1, some e)
      | none =>
          (p.1 ++ (uninstallLoop env purge rest).1, (uninstallLoop env purge rest).2)

/-- `uninstall(args)`. -/
def uninstall (env : Env) (a : Args) : List Event × Option Err :=
  uninstallLoop env false a.host

/-- `purge(args)`. -/
def purge (env : Env) (a : Args) : List Event × Option Err :=
  uninstallLoop env true a.host

/-- Phase 1 of `purge_data`: per host open a session, test
`which('ceph')`, record the hostname when present, close the session.
Returns the aggregated `installed_hosts` list alongside the trace. -/
def purgeCheckLoop (env : Env) :
    List String → List String × List Event × Option Err
  | [] => ([], [], none)
  | h :: rest =>
      match env.getHost h with
      | some e => ([], [], some e)
      | none =>
          let present := env.whichCeph h
          let c := purgeCheckLoop env rest
          ((if present then h :: c.1 else c.1),
           Event.connect h :: Event.whichCheck h present :: Event.connExit h :: c.2.1,
           c.2.2)

/-- One phase-2 `purge_data` host iteration: best-effort
`rm -rf /var/lib/ceph` via `process.check` (errors ignored); if the path
still exists, warn, unmount the depth-1/depth-2 subdirectories, and
re-run the removal via `process.run` (errors surfaced); finally remove
`/etc/ceph/` via `process.run` (errors surfaced), and close the session. -/
def purgeDataHost (env : Env) (h : String) : List Event × Option Err :=
  match env.getHost h with
  | some e => ([], some e)
  | none =>
      let ev0 := [Event.connect h, Event.rmDataBestEffort h]
      let confStep := fun (evs : List Event) =>
        let evs' := evs ++ [Event.rmConfDir h]
        match env.rmConfRun h with
        | some e => (evs', some e)
        | none => (evs' ++ [Event.connExit h], none)
      if env.pathExists h then
        let ev1 := ev0 ++ [Event.warnOsdMounted h, Event.umountSubdirs h]
        match env.umountRun h with
        | some e => (ev1, some e)
        | none =>
            let ev2 := ev1 ++ [Event.rmDataChecked h]
            match env.rmDataRun h with
            | some e => (ev2, some e)
            | none => confStep ev2
      else confStep ev0

/-- The phase-2 host loop of `purge_data`, fail-fast. -/
def purgeDataLoop (env : Env) : List String → List Event × Option Err
  | [] => ([], none)
  | h :: rest =>
      let p := purgeDataHost env h
      match p.2 with
      | some e => (p.1, some e)
      | none =>
          (p.1 ++ (purgeDataLoop env rest).1, (purgeDataLoop env rest).2)

/-- `purge_data(args)`: phase 1 over all hosts; if any host still has
the binary, log the offending host list and raise without touching any
host; otherwise run phase 2 over all hosts. -/
def purge_data (env : Env) (a : Args) : List Event × Option Err :=
  let c := purgeCheckLoop env a.host
  match c.2.2 with
  | some e => (c.2.1, some e)
  | none =>
      if c.1.isEmpty then
        (c.2.1 ++ (purgeDataLoop env a.host).1, (purgeDataLoop env a.host).2)
      else
        (c.2.1 ++ [Event.logErrorStillInstalled c.1], some Err.stillInstalled)

/-! ## Spec-side once-per-invocation resolution (for refinement claims) -/

/-- The spec's `RepositorySource` tagged variant (spec §3): exactly one
variant per install invocation. -/
inductive RepoSource where
  | explicitOverride (repoUrl gpgUrl : Option String)
  | namedConfigRepo
  | noCustomSource
deriving DecidableEq, Repr

/-- Modelled from the spec: "resolve RepositorySource exactly once per
invocation (not per host — it is computed from invocation-level
inputs)"; the decision order is spec §4.2 (explicit override wins, then
a config document with repo sections and a release match or a default,
else no custom source). -/
def resolveSource (env : Env) (a : Args) : RepoSource :=
  let repo_url := resolveRepoUrl env a
  if truthyStr repo_url then
    RepoSource.explicitOverride repo_url (resolveGpgUrl env a)
  else if should_use_custom_repo a a.cd_conf repo_url then RepoSource.namedConfigRepo
  else RepoSource.noCustomSource

/-- Modelled from the spec: the per-host dispatch of §4.3, driven by a
pre-resolved `RepoSource` instead of re-deriving it from the flags
(warnings stay per-host log lines, as in the source). -/
def dispatchBranch (env : Env) (a : Args) (src : RepoSource) (hostname : String) :
    List Event × Option Err :=
  match src with
  | RepoSource.explicitOverride repoUrl gpgUrl =>
      (gpgWarn env a hostname ++ overrideWarns a hostname ++
        [Event.mirrorInstall hostname repoUrl gpgUrl a.adjust_repos],
       env.mirrorInstall hostname)
  | RepoSource.namedConfigRepo =>
      match a.cd_conf with
      | some conf =>
          let pr := custom_repo env a conf hostname
          (gpgWarn env a hostname ++ pr.1, pr.2)
      | none => defaultInstallStep env a hostname (gpgWarn env a hostname)
  | RepoSource.noCustomSource => defaultInstallStep env a hostname (gpgWarn env a hostname)

/-- One host iteration of the spec-side install, given the resolved source. -/
def dispatchHost (env : Env) (a : Args) (src : RepoSource) (hostname : String) :
    List Event × Option Err :=
  match env.getHost hostname with
  | some e => ([], some e)
  | none =>
      let d := dispatchBranch env a src hostname
      match d.2 with
      | some e => (Event.connect hostname :: d.1, some e)
      | none => finishHost env hostname (Event.connect hostname :: d.1)

/-- The spec-side host loop: the identical resolved source is used for
every host. -/
def dispatchLoop (env : Env) (a : Args) (src : RepoSource) :
    List String → List Event × Option Err
  | [] => ([], none)
  | h :: rest =>
      let p := dispatchHost env a src h
      match p.2 with
      | some e => (p.1, some e)
      | none =>
          (p.1 ++ (dispatchLoop env a src rest).1, (dispatchLoop env a src rest).2)

/-- Modelled from the spec (§4.3): install with the repository source
resolved exactly once per invocation, before the host loop. -/
def installOnce (env : Env) (a0 : Args) : List Event × Option Err :=
  let a := (versionPrologue a0).1
  let src := resolveSource env a
  ((versionPrologue a0).2 ++ (dispatchLoop env a src a.host).1,
   (dispatchLoop env a src a.host).2)

/-! ## Event classifiers -/

/-- Is the event one of the modelled `LOG.warning`/`rlogger.warning`
lines? -/
def isWarning : Event → Bool
  | Event.warnDeprecatedStable => true
  | Event.warnGpgFallback _ => true
  | Event.warnDefaultOverridden _ => true
  | Event.warnCustomOverridden _ => true
  | Event.warnNoDefault _ => true
  | Event.warnOsdMounted _ => true
  | _ => false

/-- Is the event a destructive purge-data step (a removal of the data
or configuration directory, or an unmount under the data directory)? -/
def destructive : Event → Bool
  | Event.rmDataBestEffort _ => true
  | Event.umountSubdirs _ => true
  | Event.rmDataChecked _ => true
  | Event.rmConfDir _ => true
  | _ => false

/-- Is the event a `distro.repo_install` adapter call? -/
def isRepoInstall : Event → Bool
  | Event.repoInstall _ _ _ _ _ => true
  | _ => false

/-- Is the event a `distro.conn.exit()` session close? -/
def isConnExit : Event → Bool
  | Event.connExit _ => true
  | _ => false

/-- The host an event belongs to (`none` for the two invocation-level
events: the deprecation warning and the phase-1 aggregate error log). -/
def eventHost : Event → Option String
  | Event.warnDeprecatedStable => none
  | Event.logErrorStillInstalled _ => none
  | Event.warnGpgFallback h => some h
  | Event.warnDefaultOverridden h => some h
  | Event.warnCustomOverridden h => some h
  | Event.warnNoDefault h => some h
  | Event.warnOsdMounted h => some h
  | Event.connect h => some h
  | Event.mirrorInstall h _ _ _ => some h
  | Event.repoInstall h _ _ _ _ => some h
  | Event.defaultInstall h _ _ _ => some h
  | Event.cephVersionCheck h => some h
  | Event.connExit h => some h
  | Event.uninstallPkg h _ => some h
  | Event.whichCheck h _ => some h
  | Event.rmDataBestEffort h => some h
  | Event.umountSubdirs h => some h
  | Event.rmDataChecked h => some h
  | Event.rmConfDir h => some h

/-! ## Concrete fixtures (used by witnesses and counterexamples) -/

/-- A baseline world: no environment overrides, every external call
succeeds, the package is nowhere installed, the data directory vanishes
on the first removal attempt. -/
def env0 : Env :=
  { envRepoUrl := none, envGpgUrl := none, getHost := fun _ => none,
    mirrorInstall := fun _ => none, repoInstall := fun _ _ => none,
    install := fun _ => none, cephVersion := fun _ => none,
    uninstall := fun _ => none, whichCeph := fun _ => false,
    pathExists := fun _ => false, umountRun := fun _ => none,
    rmDataRun := fun _ => none, rmConfRun := fun _ => none }

/-- Baseline flags: the source's defaults (`release='emperor'`,
`version_kind='stable'`, `adjust_repos=True`), one host, no config. -/
def args0 : Args :=
  { stable := none, release := "emperor", dev := "master",
    version_kind := "stable", adjust_repos := true, repo_url := none,
    gpg_url := none, host := ["node1"], cd_conf := none }

/-- A config document with one repo section that matches neither the
release nor carries a default. -/
def confC3 : ConfDocument :=
  { defaultRepo := none, hasRepos := true, repos := ["quantal"],
    items := fun _ => [], getList := fun _ _ => [] }

/-- Flags pointing at `confC3`. -/
def argsC3 : Args := { args0 with cd_conf := some confC3 }

/-- Flags with an explicit `--repo-url` and a config document that would
otherwise have matched. -/
def argsC2 : Args :=
  { args0 with
      repo_url := some "http://mirror.local/ceph"
      cd_conf := some confC3 }

/-- A config document with both a default section and a section named
after the release. -/
def confC4 : ConfDocument :=
  { defaultRepo := some "other", hasRepos := true, repos := ["emperor"],
    items := fun s =>
      if s == "emperor" then [("baseurl", "http://b"), ("gpgkey", "k"), ("x", "y")]
      else [],
    getList := fun _ _ => [] }

/-- Flags pointing at `confC4`. -/
def argsC4 : Args := { args0 with cd_conf := some confC4 }

/-- A config document whose default section lacks `gpgkey`. -/
def confC5 : ConfDocument :=
  { defaultRepo := some "sec", hasRepos := true, repos := [],
    items := fun s => if s == "sec" then [("baseurl", "http://x")] else [],
    getList := fun _ _ => [] }

/-- Flags pointing at `confC5`. -/
def argsC5 : Args := { args0 with cd_conf := some confC5 }

/-- A world in which only host `alpha` still has the binary. -/
def envC1 : Env := { env0 with whichCeph := fun h => h == "alpha" }

/-- A two-host fleet. -/
def argsC1 : Args := { args0 with host := ["alpha", "beta"] }

/-- A world in which the data directory survives the best-effort removal
and the second (checked) removal fails. -/
def envC6 : Env :=
  { env0 with
      pathExists := fun _ => true
      rmDataRun := fun h => some (Err.remote h "rm") }

/-- A world in which every session open fails. -/
def envC7 : Env :=
  { env0 with getHost := fun h => some (Err.remote h "connect") }

/-- A world in which the default-channel install call fails. -/
def envC10 : Env :=
  { env0 with install := fun h => some (Err.remote h "install") }

/-- Flags with only the deprecated `--stable` alias supplied. -/
def argsC9 : Args := { args0 with stable := some "dumpling" }

/-! ## Branch characterization lemmas -/

theorem should_use_custom_repo_noconf (a : Args) (ru : Option String) :
    should_use_custom_repo a none ru = false := by
  unfold should_use_custom_repo
  split <;> rfl

theorem gpgWarn_nil (env : Env) (a : Args) (hn : String)
    (h : truthyStr (resolveRepoUrl env a) = false) :
    gpgWarn env a hn = [] := by
  simp [gpgWarn, h]

theorem installDispatch_mirror (env : Env) (a : Args) (hn : String)
    (h : truthyStr (resolveRepoUrl env a) = true) :
    installDispatch env a hn =
      (gpgWarn env a hn ++ overrideWarns a hn ++
        [Event.mirrorInstall hn (resolveRepoUrl env a) (resolveGpgUrl env a)
          a.adjust_repos],
       env.mirrorInstall hn) := by
  simp [installDispatch, h]

theorem installDispatch_custom (env : Env) (a : Args) (hn : String)
    (conf : ConfDocument)
    (h1 : truthyStr (resolveRepoUrl env a) = false)
    (hc : a.cd_conf = some conf)
    (h2 : should_use_custom_repo a (some conf) (resolveRepoUrl env a) = true) :
    installDispatch env a hn = custom_repo env a conf hn := by
  simp [installDispatch, h1, hc, h2, gpgWarn_nil env a hn h1]

theorem installDispatch_default (env : Env) (a : Args) (hn : String)
    (h1 : truthyStr (resolveRepoUrl env a) = false)
    (h2 : should_use_custom_repo a a.cd_conf (resolveRepoUrl env a) = false) :
    installDispatch env a hn =
      ([Event.defaultInstall hn a.version_kind (getVersion a) a.adjust_repos],
       env.install hn) := by
  cases hc : a.cd_conf with
  | none => simp [installDispatch, h1, hc, defaultInstallStep, gpgWarn_nil env a hn h1]
  | some conf =>
      rw [hc] at h2
      simp [installDispatch, h1, hc, h2, defaultInstallStep, gpgWarn_nil env a hn h1]

theorem dispatchBranch_eq (env : Env) (a : Args) (hn : String) :
    dispatchBranch env a (resolveSource env a) hn = installDispatch env a hn := by
  unfold resolveSource
  cases ht : truthyStr (resolveRepoUrl env a) with
  | true => simp [ht, dispatchBranch, installDispatch_mirror env a hn ht]
  | false =>
      cases hs : should_use_custom_repo a a.cd_conf (resolveRepoUrl env a) with
      | true =>
          cases hc : a.cd_conf with
          | none => rw [hc, should_use_custom_repo_noconf] at hs; exact absurd hs (by simp)
          | some conf =>
              rw [hc] at hs
              simp [ht, hc, hs, dispatchBranch,
                installDispatch_custom env a hn conf ht hc hs,
                gpgWarn_nil env a hn ht]
      | false =>
          simp [ht, hs, dispatchBranch, defaultInstallStep,
            installDispatch_default env a hn ht hs, gpgWarn_nil env a hn ht]

theorem dispatchHost_eq (env : Env) (a : Args) (hn : String) :
    dispatchHost env a (resolveSource env a) hn = installHost env a hn := by
  unfold dispatchHost installHost
  rw [dispatchBranch_eq]

theorem dispatchLoop_eq (env : Env) (a : Args) :
    ∀ hs, dispatchLoop env a (resolveSource env a) hs = installLoop env a hs := by
  intro hs
  induction hs with
  | nil => rfl
  | cons h rest ih =>
      simp only [dispatchLoop, installLoop, dispatchHost_eq, ih]

/-! ## Trace shape lemmas -/

theorem extraRepoStep_shape (env : Env) (conf : ConfDocument) (hn x : String) :
    ∀ e ∈ (extraRepoStep env conf hn x).1,
      ∃ b g d, e = Event.repoInstall hn x b g d := by
  intro e he
  simp only [extraRepoStep] at he
  split at he
  · simp at he
  · split at he
    · simp at he
    · simp at he
      exact ⟨_, _, _, he⟩

theorem extraRepoLoop_shape (env : Env) (conf : ConfDocument) (hn : String) :
    ∀ xs, ∀ e ∈ (extraRepoLoop env conf hn xs).1,
      ∃ x b g d, e = Event.repoInstall hn x b g d := by
  intro xs
  induction xs with
  | nil => intro e he; simp [extraRepoLoop] at he
  | cons x rest ih =>
      intro e he
      simp only [extraRepoLoop] at he
      split at he
      · obtain ⟨b, g, d, h⟩ := extraRepoStep_shape env conf hn x e he
        exact ⟨x, b, g, d, h⟩
      · rcases List.mem_append.mp he with h | h
        · obtain ⟨b, g, d, h'⟩ := extraRepoStep_shape env conf hn x e h
          exact ⟨x, b, g, d, h'⟩
        · exact ih e h

theorem custom_repo_shape (env : Env) (a : Args) (conf : ConfDocument) (hn : String) :
    ∀ e ∈ (custom_repo env a conf hn).1,
      e = Event.warnNoDefault hn ∨ ∃ x b g d, e = Event.repoInstall hn x b g d := by
  intro e he
  simp only [custom_repo] at he
  split at he
  · simp at he; exact Or.inl he
  · split at he
    · simp at he; exact Or.inl he
    · split at he
      · simp at he
      · split at he
        · simp at he
        · split at he
          · simp at he
            exact Or.inr ⟨_, _, _, _, he⟩
          · simp only [List.mem_cons] at he
            rcases he with h | h
            · exact Or.inr ⟨_, _, _, _, h⟩
            · obtain ⟨x, b, g, d, h'⟩ := extraRepoLoop_shape env conf hn _ e h
              exact Or.inr ⟨x, b, g, d, h'⟩

theorem mem_gpgWarn (env : Env) (a : Args) (hn : String) (e : Event)
    (h : e ∈ gpgWarn env a hn) : e = Event.warnGpgFallback hn := by
  unfold gpgWarn at h
  split at h
  · simpa using h
  · simp at h

theorem mem_overrideWarns (a : Args) (hn : String) (e : Event)
    (h : e ∈ overrideWarns a hn) :
    e = Event.warnDefaultOverridden hn ∨ e = Event.warnCustomOverridden hn := by
  unfold overrideWarns at h
  split at h
  · simp at h
  · rcases List.mem_append.mp h with h' | h'
    · left; revert h'; split <;> simp
    · right; revert h'; split <;> simp

theorem installDispatch_host (env : Env) (a : Args) (hn : String) :
    ∀ e ∈ (installDispatch env a hn).1,
      eventHost e = some hn ∧ isConnExit e = false := by
  intro e he
  cases ht : truthyStr (resolveRepoUrl env a) with
  | true =>
      rw [installDispatch_mirror env a hn ht] at he
      rcases List.mem_append.mp he with h | h
      · rcases List.mem_append.mp h with h' | h'
        · rw [mem_gpgWarn env a hn e h']; exact ⟨rfl, rfl⟩
        · rcases mem_overrideWarns a hn e h' with h'' | h'' <;>
            (rw [h'']; exact ⟨rfl, rfl⟩)
      · simp only [List.mem_singleton] at h
        rw [h]; exact ⟨rfl, rfl⟩
  | false =>
      cases hs : should_use_custom_repo a a.cd_conf (resolveRepoUrl env a) with
      | false =>
          rw [installDispatch_default env a hn ht hs] at he
          simp only [List.mem_singleton] at he
          rw [he]; exact ⟨rfl, rfl⟩
      | true =>
          cases hc : a.cd_conf with
          | none => rw [hc, should_use_custom_repo_noconf] at hs; exact absurd hs (by simp)
          | some conf =>
              rw [hc] at hs
              rw [installDispatch_custom env a hn conf ht hc hs] at he
              rcases custom_repo_shape env a conf hn e he with h | ⟨x, b, g, d, h⟩ <;>
                (rw [h]; exact ⟨rfl, rfl⟩)

theorem installHost_shape (env : Env) (a : Args) (hn : String) :
    ∀ e ∈ (installHost env a hn).1,
      e = Event.connect hn ∨ e ∈ (installDispatch env a hn).1 ∨
        e = Event.cephVersionCheck hn ∨ e = Event.connExit hn := by
  intro e he
  unfold installHost at he
  cases hg : env.getHost hn with
  | some err => rw [hg] at he; simp at he
  | none =>
      rw [hg] at he
      simp only at he
      cases hd : (installDispatch env a hn).2 with
      | some err =>
          rw [hd] at he
          simp only [List.mem_cons] at he
          tauto
      | none =>
          rw [hd] at he
          simp only [finishHost] at he
          cases hv : env.cephVersion hn with
          | some err =>
              rw [hv] at he
              simp only [List.mem_append, List.mem_cons, List.mem_singleton] at he
              tauto
          | none =>
              rw [hv] at he
              simp only [List.mem_append, List.mem_cons, List.mem_singleton] at he
              tauto

theorem installHost_hostTag (env : Env) (a : Args) (hn : String) :
    ∀ e ∈ (installHost env a hn).1, eventHost e = some hn := by
  intro e he
  rcases installHost_shape env a hn e he with h | h | h | h
  · rw [h]; rfl
  · exact (installDispatch_host env a hn e h).1
  · rw [h]; rfl
  · rw [h]; rfl

theorem uninstallHost_hostTag (env : Env) (p : Bool) (hn : String) :
    ∀ e ∈ (uninstallHost env p hn).1, eventHost e = some hn := by
  have hall : ((uninstallHost env p hn).1.all
      (fun e => eventHost e == some hn)) = true := by
    unfold uninstallHost
    cases env.getHost hn <;> cases env.uninstall hn <;> simp [eventHost]
  intro e he
  simpa using List.all_eq_true.mp hall e he

theorem purgeDataHost_hostTag (env : Env) (hn : String) :
    ∀ e ∈ (purgeDataHost env hn).1, eventHost e = some hn := by
  have hall : ((purgeDataHost env hn).1.all
      (fun e => eventHost e == some hn)) = true := by
    unfold purgeDataHost
    cases env.getHost hn <;>
      cases env.pathExists hn <;>
        cases env.umountRun hn <;>
          cases env.rmDataRun hn <;>
            cases env.rmConfRun hn <;>
              simp [eventHost]
  intro e he
  simpa using List.all_eq_true.mp hall e he

/-! ## Host-iteration characterizations -/

theorem installHost_eq_get (env : Env) (a : Args) (hn : String) (e : Err)
    (hg : env.getHost hn = some e) : installHost env a hn = ([], some e) := by
  unfold installHost; rw [hg]

theorem installHost_eq_dispatchErr (env : Env) (a : Args) (hn : String) (e : Err)
    (hg : env.getHost hn = none) (hd : (installDispatch env a hn).2 = some e) :
    installHost env a hn =
      (Event.connect hn :: (installDispatch env a hn).1, some e) := by
  unfold installHost; rw [hg]; simp only [hd]

theorem installHost_eq_versionErr (env : Env) (a : Args) (hn : String) (e : Err)
    (hg : env.getHost hn = none) (hd : (installDispatch env a hn).2 = none)
    (hv : env.cephVersion hn = some e) :
    installHost env a hn =
      ((Event.connect hn :: (installDispatch env a hn).1) ++
        [Event.cephVersionCheck hn], some e) := by
  unfold installHost; rw [hg]; simp only [hd, finishHost, hv]

theorem installHost_eq_ok (env : Env) (a : Args) (hn : String)
    (hg : env.getHost hn = none) (hd : (installDispatch env a hn).2 = none)
    (hv : env.cephVersion hn = none) :
    installHost env a hn =
      (((Event.connect hn :: (installDispatch env a hn).1) ++
        [Event.cephVersionCheck hn]) ++ [Event.connExit hn], none) := by
  unfold installHost; rw [hg]; simp only [hd, finishHost, hv]

/-! ## Phase-1 purge-data lemmas -/

theorem purgeCheckLoop_ok (env : Env) :
    ∀ hs, (∀ h ∈ hs, env.getHost h = none) →
      (purgeCheckLoop env hs).1 = hs.filter env.whichCeph ∧
      (purgeCheckLoop env hs).2.2 = none := by
  intro hs
  induction hs with
  | nil => intro _; exact ⟨rfl, rfl⟩
  | cons h rest ih =>
      intro hg
      have hh : env.getHost h = none := hg h (List.mem_cons_self h rest)
      have hr := ih (fun x hx => hg x (List.mem_cons_of_mem h hx))
      unfold purgeCheckLoop
      rw [hh]
      simp only [List.filter_cons]
      cases hw : env.whichCeph h <;> simp [hw, hr.1, hr.2]

theorem purgeCheckLoop_nondestructive (env : Env) :
    ∀ hs, ((purgeCheckLoop env hs).2.1.all (fun e => !destructive e)) = true := by
  intro hs
  induction hs with
  | nil => rfl
  | cons h rest ih =>
      unfold purgeCheckLoop
      cases env.getHost h with
      | none =>
          rw [List.all_cons, List.all_cons, List.all_cons, ih]
          rfl
      | some e => rfl

/-! ## Claim theorems -/

/-- C8: For every install invocation, the repository source is resolved
exactly once per invocation, not per host: it is computed from
invocation-level inputs only (flags, environment overrides, config
document), so every host in the list is dispatched with the identical
resolved source.  Formally: the source's per-host re-derivation
(`install`) is extensionally equal to the spec-side `installOnce`, which
computes `resolveSource` once before the host loop and dispatches every
host with that identical `RepoSource`. -/
theorem install_resolves_source_once (env : Env) (a : Args) :
    installOnce env a = install env a := by
  simp only [installOnce, install, dispatchLoop_eq]

/-- C9: If only the deprecated `--stable` alias flag was supplied with
value X (so `args.stable = some X` and `StoreVersion` recorded the kind
as `stable`), the resolution treats X as the release value: the
effective release is X, the active kind is `stable`, the resolved
version is X, and the deprecation warning is emitted (it is in the
trace of every such install invocation). -/
theorem stable_alias_resolution (env : Env) (a : Args) (X : String)
    (hst : a.stable = some X)
    (hk : a.version_kind = storeVersionKind "stable") :
    (versionPrologue a).1.release = X ∧
    (versionPrologue a).1.version_kind = "stable" ∧
    getVersion (versionPrologue a).1 = some X ∧
    (versionPrologue a).2 = [Event.warnDeprecatedStable] ∧
    Event.warnDeprecatedStable ∈ (install env a).1 := by
  have hk' : a.version_kind = "stable" := hk
  refine ⟨?_, ?_, ?_, ?_, ?_⟩
  · unfold versionPrologue; rw [hst]
  · unfold versionPrologue; rw [hst]; exact hk'
  · unfold versionPrologue getVersion; rw [hst]; simp [hk']
  · unfold versionPrologue; rw [hst]
  · unfold install versionPrologue
    rw [hst]
    exact List.mem_append_left _ (List.mem_singleton.mpr rfl)

/-- C7: For every host list and every orchestrator (install, uninstall,
purge, purge-data phase 2), if processing of the first host raises, the
whole loop's outcome is exactly that host's outcome — no later host is
attempted — and every event of a host iteration is tagged with that
host, so the loop's trace mentions no later host. -/
theorem fail_fast_across_hosts (env : Env) (a : Args) (p : Bool) (h : String)
    (rest : List String) :
    ((installHost env a h).2.isSome = true →
      installLoop env a (h :: rest) = installHost env a h) ∧
    ((uninstallHost env p h).2.isSome = true →
      uninstallLoop env p (h :: rest) = uninstallHost env p h) ∧
    ((purgeDataHost env h).2.isSome = true →
      purgeDataLoop env (h :: rest) = purgeDataHost env h) ∧
    (∀ e ∈ (installHost env a h).1, eventHost e = some h) ∧
    (∀ e ∈ (uninstallHost env p h).1, eventHost e = some h) ∧
    (∀ e ∈ (purgeDataHost env h).1, eventHost e = some h) := by
  refine ⟨?_, ?_, ?_, installHost_hostTag env a h, uninstallHost_hostTag env p h,
    purgeDataHost_hostTag env h⟩
  · intro herr
    rcases hh : (installHost env a h).2 with _ | e
    · rw [hh] at herr; simp at herr
    · have h1 : installLoop env a (h :: rest) = ((installHost env a h).1, some e) := by
        simp only [installLoop, hh]
      rw [h1, ← hh]
  · intro herr
    rcases hh : (uninstallHost env p h).2 with _ | e
    · rw [hh] at herr; simp at herr
    · have h1 : uninstallLoop env p (h :: rest) =
          ((uninstallHost env p h).1, some e) := by
        simp only [uninstallLoop, hh]
      rw [h1, ← hh]
  · intro herr
    rcases hh : (purgeDataHost env h).2 with _ | e
    · rw [hh] at herr; simp at herr
    · have h1 : purgeDataLoop env (h :: rest) = ((purgeDataHost env h).1, some e) := by
        simp only [purgeDataLoop, hh]
      rw [h1, ← hh]

/-- C10: In an install host iteration, the session close (`conn.exit`)
is the last statement: it happens iff the iteration succeeds.  If any
step raised (session open, dispatch — adapter call or configuration
error — or the version check), the close is skipped; release is
guaranteed only on the success path. -/
theorem install_session_close_on_success_only (env : Env) (a : Args) (hn : String) :
    ((installHost env a hn).2.isSome = true →
      ((installHost env a hn).1.all (fun e => !isConnExit e)) = true) ∧
    ((installHost env a hn).2 = none →
      Event.connExit hn ∈ (installHost env a hn).1) := by
  have hall : ((installDispatch env a hn).1.all (fun e => !isConnExit e)) = true :=
    List.all_eq_true.mpr (fun x hx => by
      simpa using (installDispatch_host env a hn x hx).2)
  constructor
  · intro herr
    rcases hg : env.getHost hn with _ | e
    · rcases hd : (installDispatch env a hn).2 with _ | e
      · rcases hv : env.cephVersion hn with _ | e
        · rw [installHost_eq_ok env a hn hg hd hv] at herr
          simp at herr
        · rw [installHost_eq_versionErr env a hn e hg hd hv]
          simp only [List.all_append, List.all_cons, List.all_nil, hall]
          rfl
      · rw [installHost_eq_dispatchErr env a hn e hg hd]
        simp only [List.all_cons, hall]
        rfl
    · rw [installHost_eq_get env a hn e hg]
      rfl
  · intro hok
    rcases hg : env.getHost hn with _ | e
    · rcases hd : (installDispatch env a hn).2 with _ | e
      · rcases hv : env.cephVersion hn with _ | e
        · rw [installHost_eq_ok env a hn hg hd hv]
          exact List.mem_append_right _ (List.mem_singleton.mpr rfl)
        · rw [installHost_eq_versionErr env a hn e hg hd hv] at hok
          simp at hok
      · rw [installHost_eq_dispatchErr env a hn e hg hd] at hok
        simp at hok
    · rw [installHost_eq_get env a hn e hg] at hok
      simp at hok

/-- C1: For every host list given to purge-data, if phase 1 ran (every
session opened) and at least one host reports the `ceph` binary present,
the invocation fails with the precondition-violation error, the error
log reports exactly the offending hosts (the sublist of hosts whose
check came back positive), and no destructive event — no data-directory
removal, no unmount, no configuration-directory removal — appears in
the trace for any host. -/
theorem purge_data_all_or_nothing (env : Env) (a : Args)
    (hget : ∀ h ∈ a.host, env.getHost h = none)
    (hsome : ∃ h ∈ a.host, env.whichCeph h = true) :
    (purge_data env a).2 = some Err.stillInstalled ∧
    Event.logErrorStillInstalled (a.host.filter env.whichCeph) ∈
      (purge_data env a).1 ∧
    ((purge_data env a).1.all (fun e => !destructive e)) = true := by
  obtain ⟨hins, herr⟩ := purgeCheckLoop_ok env a.host hget
  have hne : (a.host.filter env.whichCeph).isEmpty = false := by
    obtain ⟨h, hm, hw⟩ := hsome
    have hmem : h ∈ a.host.filter env.whichCeph := List.mem_filter.mpr ⟨hm, hw⟩
    rcases hfe : a.host.filter env.whichCeph with _ | ⟨x, xs⟩
    · rw [hfe] at hmem; simp at hmem
    · rfl
  have hchar : purge_data env a =
      ((purgeCheckLoop env a.host).2.1 ++
        [Event.logErrorStillInstalled (a.host.filter env.whichCeph)],
       some Err.stillInstalled) := by
    simp only [purge_data]
    rw [herr]
    simp [hins, hne]
  refine ⟨by rw [hchar], ?_, ?_⟩
  · rw [hchar]
    exact List.mem_append_right _ (List.mem_singleton.mpr rfl)
  · rw [hchar]
    simp only [List.all_append, List.all_cons, List.all_nil,
      purgeCheckLoop_nondestructive env a.host]
    rfl

/-- C2: Whenever the resolved repo URL (environment override or
`--repo-url`) is truthy, the custom-repo-from-config predicate is false,
the resolved source is the explicit override carrying that repo URL and
the resolved GPG URL, every host whose session opens receives the
`mirror_install` call with exactly those URLs, and no config-based
`repo_install` call ever appears in any host's trace. -/
theorem explicit_repo_overrides_config (env : Env) (a : Args)
    (hro : truthyStr (resolveRepoUrl env a) = true) :
    should_use_custom_repo a a.cd_conf (resolveRepoUrl env a) = false ∧
    resolveSource env a =
      RepoSource.explicitOverride (resolveRepoUrl env a) (resolveGpgUrl env a) ∧
    (∀ hn, env.getHost hn = none →
      Event.mirrorInstall hn (resolveRepoUrl env a) (resolveGpgUrl env a)
        a.adjust_repos ∈ (installHost env a hn).1) ∧
    (∀ hn, ((installHost env a hn).1.all (fun e => !isRepoInstall e)) = true) := by
  refine ⟨?_, ?_, ?_, ?_⟩
  · simp [should_use_custom_repo, hro]
  · simp [resolveSource, hro]
  · intro hn hg
    have hme : Event.mirrorInstall hn (resolveRepoUrl env a) (resolveGpgUrl env a)
        a.adjust_repos ∈ (installDispatch env a hn).1 := by
      rw [installDispatch_mirror env a hn hro]
      exact List.mem_append_right _ (List.mem_singleton.mpr rfl)
    rcases hd : (installDispatch env a hn).2 with _ | e
    · rcases hv : env.cephVersion hn with _ | e
      · rw [installHost_eq_ok env a hn hg hd hv]
        exact List.mem_append_left _
          (List.mem_append_left _ (List.mem_cons_of_mem _ hme))
      · rw [installHost_eq_versionErr env a hn e hg hd hv]
        exact List.mem_append_left _ (List.mem_cons_of_mem _ hme)
    · rw [installHost_eq_dispatchErr env a hn e hg hd]
      exact List.mem_cons_of_mem _ hme
  · intro hn
    apply List.all_eq_true.mpr
    intro x hx
    rcases installHost_shape env a hn x hx with h | h | h | h
    · rw [h]; rfl
    · rw [installDispatch_mirror env a hn hro] at h
      rcases List.mem_append.mp h with h' | h'
      · rcases List.mem_append.mp h' with h2 | h2
        · rw [mem_gpgWarn env a hn x h2]; rfl
        · rcases mem_overrideWarns a hn x h2 with h3 | h3 <;> (rw [h3]; rfl)
      · simp only [List.mem_singleton] at h'
        rw [h']; rfl
    · rw [h]; rfl
    · rw [h]; rfl

/-- C3 (amended): With no explicit repo URL and a config document that
has repo sections but neither a release-named section nor a truthy
default repo, no custom source is selected and the orchestrator falls
through to the distro's built-in default install — and, contrary to the
original claim, no warning is emitted on this path (the
`could not default to one` warning lives inside `custom_repo`, which is
only called when `should_use_custom_repo` is true, so it is unreachable
here). -/
theorem config_without_match_falls_through (env : Env) (a : Args)
    (conf : ConfDocument)
    (hc : a.cd_conf = some conf)
    (hro : truthyStr (resolveRepoUrl env a) = false)
    (hhr : conf.hasRepos = true)
    (hnr : a.release ∉ conf.repos)
    (hnd : truthyStr conf.defaultRepo = false) :
    should_use_custom_repo a a.cd_conf (resolveRepoUrl env a) = false ∧
    resolveSource env a = RepoSource.noCustomSource ∧
    (∀ hn, env.getHost hn = none →
      Event.defaultInstall hn a.version_kind (getVersion a) a.adjust_repos ∈
        (installHost env a hn).1) ∧
    (∀ hn, ((installHost env a hn).1.all (fun e => !isWarning e)) = true) := by
  have hsu : should_use_custom_repo a a.cd_conf (resolveRepoUrl env a) = false := by
    rw [hc]
    simp [should_use_custom_repo, hro, hhr, hnr, hnd]
  refine ⟨hsu, ?_, ?_, ?_⟩
  · simp [resolveSource, hro, hsu]
  · intro hn hg
    have hme : Event.defaultInstall hn a.version_kind (getVersion a)
        a.adjust_repos ∈ (installDispatch env a hn).1 := by
      rw [installDispatch_default env a hn hro hsu]
      exact List.mem_singleton.mpr rfl
    rcases hd : (installDispatch env a hn).2 with _ | e
    · rcases hv : env.cephVersion hn with _ | e
      · rw [installHost_eq_ok env a hn hg hd hv]
        exact List.mem_append_left _
          (List.mem_append_left _ (List.mem_cons_of_mem _ hme))
      · rw [installHost_eq_versionErr env a hn e hg hd hv]
        exact List.mem_append_left _ (List.mem_cons_of_mem _ hme)
    · rw [installHost_eq_dispatchErr env a hn e hg hd]
      exact List.mem_cons_of_mem _ hme
  · intro hn
    apply List.all_eq_true.mpr
    intro x hx
    rcases installHost_shape env a hn x hx with h | h | h | h
    · rw [h]; rfl
    · rw [installDispatch_default env a hn hro hsu] at h
      simp only [List.mem_singleton] at h
      rw [h]; rfl
    · rw [h]; rfl
    · rw [h]; rfl

/-- C4: With no explicit repo URL and a config document carrying both a
truthy default repo and a section named exactly as the (non-empty)
release value, the custom path is taken and `custom_repo` selects the
release-named section: the primary `repo_install` call carries the
release-named section and the options extracted from that section (with
`install_ceph` added and `baseurl`/`gpgkey` popped), not the default
section's. -/
theorem release_match_precedence (env : Env) (a : Args) (conf : ConfDocument)
    (hn : String)
    (hc : a.cd_conf = some conf)
    (hro : truthyStr (resolveRepoUrl env a) = false)
    (hhr : conf.hasRepos = true)
    (hrel : a.release ∈ conf.repos)
    (hne : a.release ≠ "")
    (hdef : truthyStr conf.defaultRepo = true) :
    selectRepo a conf = some a.release ∧
    should_use_custom_repo a a.cd_conf (resolveRepoUrl env a) = true ∧
    resolveSource env a = RepoSource.namedConfigRepo ∧
    (∀ b d1 g d2,
      dictPop "baseurl"
        (dictInsert "install_ceph" (OptVal.b true)
          (dictOfItems (conf.items a.release))) = some (b, d1) →
      dictPop "gpgkey" d1 = some (g, d2) →
      (custom_repo env a conf hn).1.head? =
        some (Event.repoInstall hn a.release b g d2)) := by
  have hsel : selectRepo a conf = some a.release := by simp [selectRepo, hrel]
  have hsu : should_use_custom_repo a a.cd_conf (resolveRepoUrl env a) = true := by
    rw [hc]
    simp [should_use_custom_repo, hro, hhr, hrel]
  refine ⟨hsel, hsu, ?_, ?_⟩
  · simp [resolveSource, hro, hsu]
  · intro b d1 g d2 hb hg2
    have hbeq : (a.release == "") = false := by
      simp [hne]
    unfold custom_repo
    rw [hsel]
    simp only [hbeq, Bool.false_eq_true, if_false]
    rw [hb]
    simp only []
    rw [hg2]
    cases env.repoInstall hn a.release <;> rfl

/-- C5: For a selected repo section (primary, via `selectRepo`, or any
extra section) whose options lack `baseurl` or `gpgkey`, the install
raises the configuration `RuntimeError` naming the missing key and the
section, with an empty trace for that section — no `repo_install`
adapter call is attempted — and the error propagates out of the host
iteration (the dispatch aborts with it). -/
theorem missing_key_config_error (env : Env) (a : Args) (conf : ConfDocument)
    (hn sect : String)
    (hsel : selectRepo a conf = some sect) (hsne : sect ≠ "") :
    (dictPop "baseurl"
        (dictInsert "install_ceph" (OptVal.b true)
          (dictOfItems (conf.items sect))) = none →
      custom_repo env a conf hn = ([], some (Err.missingKey "baseurl" sect))) ∧
    (∀ b d1,
      dictPop "baseurl"
        (dictInsert "install_ceph" (OptVal.b true)
          (dictOfItems (conf.items sect))) = some (b, d1) →
      dictPop "gpgkey" d1 = none →
      custom_repo env a conf hn = ([], some (Err.missingKey "gpgkey" sect))) ∧
    (∀ xrepo,
      (dictPop "baseurl" (dictOfItems (conf.items xrepo)) = none →
        extraRepoStep env conf hn xrepo =
          ([], some (Err.missingKey "baseurl" xrepo))) ∧
      (∀ b d1,
        dictPop "baseurl" (dictOfItems (conf.items xrepo)) = some (b, d1) →
        dictPop "gpgkey" d1 = none →
        extraRepoStep env conf hn xrepo =
          ([], some (Err.missingKey "gpgkey" xrepo)))) ∧
    (∀ e tr, truthyStr (resolveRepoUrl env a) = false → a.cd_conf = some conf →
      should_use_custom_repo a (some conf) (resolveRepoUrl env a) = true →
      env.getHost hn = none → custom_repo env a conf hn = (tr, some e) →
      installHost env a hn = (Event.connect hn :: tr, some e)) := by
  have hbeq : (sect == "") = false := by simp [hsne]
  refine ⟨?_, ?_, ?_, ?_⟩
  · intro hb
    unfold custom_repo
    rw [hsel]
    simp only [hbeq, Bool.false_eq_true, if_false]
    rw [hb]
  · intro b d1 hb hg2
    unfold custom_repo
    rw [hsel]
    simp only [hbeq, Bool.false_eq_true, if_false]
    rw [hb]
    simp only []
    rw [hg2]
  · intro xrepo
    constructor
    · intro hb
      unfold extraRepoStep
      simp only [hb]
    · intro b d1 hb hg2
      unfold extraRepoStep
      simp only [hb]
      rw [hg2]
  · intro e tr hro hc hsu hg hcr
    have hd1 : (installDispatch env a hn).1 = tr := by
      rw [installDispatch_custom env a hn conf hro hc hsu, hcr]
    have hd2 : (installDispatch env a hn).2 = some e := by
      rw [installDispatch_custom env a hn conf hro hc hsu, hcr]
    rw [installHost_eq_dispatchErr env a hn e hg hd2, hd1]

/-- C6: In phase 2 of purge-data, for a host whose data directory still
exists after the best-effort removal: the remediation warning and the
unmount of the depth-1/depth-2 subdirectories happen before the second
removal attempt (the trace starts `connect, best-effort rm, warning,
umount`), a failure of the second removal is surfaced as the
iteration's error (not swallowed), and the configuration-directory
removal follows it with its failure surfaced as well. -/
theorem purge_data_remediation (env : Env) (h : String)
    (hg : env.getHost h = none) (hp : env.pathExists h = true) :
    ((purgeDataHost env h).1.take 4 =
      [Event.connect h, Event.rmDataBestEffort h, Event.warnOsdMounted h,
       Event.umountSubdirs h]) ∧
    (∀ e, env.umountRun h = none → env.rmDataRun h = some e →
      purgeDataHost env h =
        ([Event.connect h, Event.rmDataBestEffort h, Event.warnOsdMounted h,
          Event.umountSubdirs h, Event.rmDataChecked h], some e)) ∧
    (∀ e, env.umountRun h = none → env.rmDataRun h = none →
      env.rmConfRun h = some e →
      purgeDataHost env h =
        ([Event.connect h, Event.rmDataBestEffort h, Event.warnOsdMounted h,
          Event.umountSubdirs h, Event.rmDataChecked h, Event.rmConfDir h],
         some e)) ∧
    (env.umountRun h = none → env.rmDataRun h = none → env.rmConfRun h = none →
      purgeDataHost env h =
        ([Event.connect h, Event.rmDataBestEffort h, Event.warnOsdMounted h,
          Event.umountSubdirs h, Event.rmDataChecked h, Event.rmConfDir h,
          Event.connExit h], none)) := by
  refine ⟨?_, ?_, ?_, ?_⟩
  · unfold purgeDataHost
    rw [hg]
    simp only [hp, if_true]
    cases env.umountRun h with
    | some e => rfl
    | none =>
        cases env.rmDataRun h with
        | some e => rfl
        | none => cases env.rmConfRun h <;> rfl
  · intro e hu hr
    unfold purgeDataHost
    rw [hg]
    simp only [hp, if_true, hu, hr]
    rfl
  · intro e hu hr hcf
    unfold purgeDataHost
    rw [hg]
    simp only [hp, if_true, hu, hr, hcf]
    rfl
  · intro hu hr hcf
    unfold purgeDataHost
    rw [hg]
    simp only [hp, if_true, hu, hr, hcf]
    rfl

/-! ## Counterexamples and witnesses -/

/-- C3 counterexample: a concrete invocation meeting the claim's
conditions (no repo URL, config has repo sections, no release match, no
default) in which the claim's "a warning is emitted" is false: the full
invocation trace is only connect / default install / version check /
session close, and contains no warning event at all. -/
theorem config_without_match_no_warning_cex :
    truthyStr (resolveRepoUrl env0 argsC3) = false ∧
    argsC3.cd_conf = some confC3 ∧
    confC3.hasRepos = true ∧
    argsC3.release ∉ confC3.repos ∧
    truthyStr confC3.defaultRepo = false ∧
    (install env0 argsC3).1 =
      [Event.connect "node1",
       Event.defaultInstall "node1" "stable" (some "emperor") true,
       Event.cephVersionCheck "node1", Event.connExit "node1"] ∧
    ((install env0 argsC3).1.all (fun e => !isWarning e)) = true := by
  refine ⟨rfl, rfl, rfl, by decide, rfl, by decide, by decide⟩

/-- C1 witness: hosts `alpha` (binary present) and `beta` (absent). -/
theorem purge_data_all_or_nothing_witness :
    (purge_data envC1 argsC1).2 = some Err.stillInstalled ∧
    Event.logErrorStillInstalled (argsC1.host.filter envC1.whichCeph) ∈
      (purge_data envC1 argsC1).1 ∧
    ((purge_data envC1 argsC1).1.all (fun e => !destructive e)) = true :=
  purge_data_all_or_nothing envC1 argsC1 (fun _ _ => rfl)
    ⟨"alpha", by decide, by decide⟩

/-- C2 witness: an explicit repo URL with a matching config present. -/
theorem explicit_repo_overrides_config_witness :
    should_use_custom_repo argsC2 argsC2.cd_conf (resolveRepoUrl env0 argsC2) =
      false ∧
    Event.mirrorInstall "node1" (some "http://mirror.local/ceph")
      (some gpg_fallback) true ∈ (installHost env0 argsC2 "node1").1 ∧
    ((installHost env0 argsC2 "node1").1.all (fun e => !isRepoInstall e)) = true := by
  have h := explicit_repo_overrides_config env0 argsC2 (by decide)
  exact ⟨h.1, h.2.2.1 "node1" rfl, h.2.2.2 "node1"⟩

/-- C3 witness (amended claim): the `confC3` scenario falls through to
the default install with no warning. -/
theorem config_without_match_falls_through_witness :
    should_use_custom_repo argsC3 argsC3.cd_conf (resolveRepoUrl env0 argsC3) =
      false ∧
    Event.defaultInstall "node1" "stable" (some "emperor") true ∈
      (installHost env0 argsC3 "node1").1 ∧
    ((installHost env0 argsC3 "node1").1.all (fun e => !isWarning e)) = true := by
  have h := config_without_match_falls_through env0 argsC3 confC3 rfl (by decide)
    (by decide) (by decide) (by decide)
  exact ⟨h.1, h.2.2.1 "node1" rfl, h.2.2.2 "node1"⟩

/-- C4 witness: release `emperor` matches a section while a default
section `other` also exists; the release-named section wins. -/
theorem release_match_precedence_witness :
    selectRepo argsC4 confC4 = some "emperor" ∧
    should_use_custom_repo argsC4 argsC4.cd_conf (resolveRepoUrl env0 argsC4) =
      true ∧
    (custom_repo env0 argsC4 confC4 "node1").1.head? =
      some (Event.repoInstall "node1" "emperor" (OptVal.s "http://b")
        (OptVal.s "k") [("x", OptVal.s "y"), ("install_ceph", OptVal.b true)]) := by
  have h := release_match_precedence env0 argsC4 confC4 "node1" rfl (by decide)
    (by decide) (by decide) (by decide) (by decide)
  refine ⟨h.1, h.2.1, ?_⟩
  exact h.2.2.2 (OptVal.s "http://b")
    [("gpgkey", OptVal.s "k"), ("x", OptVal.s "y"), ("install_ceph", OptVal.b true)]
    (OptVal.s "k")
    [("x", OptVal.s "y"), ("install_ceph", OptVal.b true)]
    (by decide) (by decide)

/-- C5 witness: the selected section `sec` lacks `gpgkey`; the error
names the key and the section and no adapter call happens. -/
theorem missing_key_config_error_witness :
    custom_repo env0 argsC5 confC5 "node1" =
      ([], some (Err.missingKey "gpgkey" "sec")) ∧
    extraRepoStep env0 confC5 "node1" "sec" =
      ([], some (Err.missingKey "gpgkey" "sec")) := by
  have h := missing_key_config_error env0 argsC5 confC5 "node1" "sec" (by decide)
    (by decide)
  constructor
  · exact h.2.1 (OptVal.s "http://x") [("install_ceph", OptVal.b true)]
      (by decide) (by decide)
  · exact (h.2.2.1 "sec").2 (OptVal.s "http://x") [] (by decide) (by decide)

/-- C6 witness: the path survives the best-effort removal and the
checked removal fails; the failure is the iteration's error. -/
theorem purge_data_remediation_witness :
    ((purgeDataHost envC6 "node1").1.take 4 =
      [Event.connect "node1", Event.rmDataBestEffort "node1",
       Event.warnOsdMounted "node1", Event.umountSubdirs "node1"]) ∧
    purgeDataHost envC6 "node1" =
      ([Event.connect "node1", Event.rmDataBestEffort "node1",
        Event.warnOsdMounted "node1", Event.umountSubdirs "node1",
        Event.rmDataChecked "node1"], some (Err.remote "node1" "rm")) := by
  have h := purge_data_remediation envC6 "node1" (by decide) (by decide)
  exact ⟨h.1, h.2.1 (Err.remote "node1" "rm") (by decide) (by decide)⟩

/-- C7 witness: host `h1` fails at session open; the loops over
`[h1, h2]` return `h1`'s outcome and `h2` is never attempted. -/
theorem fail_fast_across_hosts_witness :
    installLoop envC7 args0 ["h1", "h2"] = installHost envC7 args0 "h1" ∧
    uninstallLoop envC7 false ["h1", "h2"] = uninstallHost envC7 false "h1" ∧
    purgeDataLoop envC7 ["h1", "h2"] = purgeDataHost envC7 "h1" := by
  obtain ⟨h1, h2, h3, _, _, _⟩ := fail_fast_across_hosts envC7 args0 false "h1" ["h2"]
  exact ⟨h1 (by decide), h2 (by decide), h3 (by decide)⟩

/-- C9 witness: only `--stable dumpling` supplied. -/
theorem stable_alias_resolution_witness :
    (versionPrologue argsC9).1.release = "dumpling" ∧
    (versionPrologue argsC9).1.version_kind = "stable" ∧
    getVersion (versionPrologue argsC9).1 = some "dumpling" ∧
    (versionPrologue argsC9).2 = [Event.warnDeprecatedStable] ∧
    Event.warnDeprecatedStable ∈ (install env0 argsC9).1 :=
  stable_alias_resolution env0 argsC9 "dumpling" rfl rfl

/-- C10 witness: when the adapter install call fails the trace has no
session close; in the all-success world the close is present. -/
theorem install_session_close_witness :
    ((installHost envC10 args0 "node1").1.all (fun e => !isConnExit e)) = true ∧
    Event.connExit "node1" ∈ (installHost env0 args0 "node1").1 := by
  constructor
  · exact (install_session_close_on_success_only envC10 args0 "node1").1 (by decide)
  · exact (install_session_close_on_success_only env0 args0 "node1").2 (by decide)
